import Mathlib

/-!
Verification development for the Case Evidence & Narrative Indexing Core
of the verum-forensic-engine repository.

The definitions below are a shallow embedding of the TypeScript source:

* `src/src/index.tsx` — `mergeNarrativeIndices`, `saveReportToDB`,
  `saveEvidenceFileToDB`, `runOfflineForensics` (metadata-anomaly scan and
  temporal-gap scan);
* `src/storage.ts` (provided as `src/unnamed/part_000`) — `IndexedDBStorage`,
  `StorageManager`, `exportAllData`.

Modelling conventions:
* JavaScript objects are association lists `Obj = List (String × FVal)`;
  `setField` has exactly the semantics of a JS property assignment / spread
  override (replace the first binding with that key, else append), and
  `getField` reads the first binding.
* Asynchronous IndexedDB transactions are modelled as pure state
  transformers on a `DB` record; a transaction failure (`tx.onerror`) is
  modelled by an explicit `Oracle` that says which primitive write fails.
  `console.error` logging is modelled as an `Option StorageErr` component of
  a wrapper's result, separate from its `Except` (thrown-exception) channel.
* `new Date().toISOString()` at save time is an injected `now : String`
  argument; `new Date(s).getTime()` used for sorting is an injected
  `pt : String → Int` argument (ISO strings round-trip through it).
* SHA-256 (`crypto.subtle.digest`) and the regex-based
  `extractNarrativeIndex` are injected as opaque function arguments
  (`hashFn`, `extract`): no claim below depends on their internals, only on
  how their results flow through storage.
* The Firebase `ReplicaSync` path never touches local state and internally
  catches all of its own errors, so it contributes nothing to the local
  `DB`; it is omitted (modelled as the identity on local state).
-/

/-! ## Narrative index entries and `mergeNarrativeIndices` -/

/-- One entry of a narrative index, as produced by `extractNarrativeIndex`
(`src/src/index.tsx`).  Section entries have `level`/`title`, entity entries
have `subtype`/`value`/`context`; absent JS properties are `none`. -/
structure IndexEntry where
  type : String
  subtype : Option String := none
  level : Option Nat := none
  value : Option String := none
  title : Option String := none
  parent : Option String := none
  context : Option String := none
  line : Nat := 0
deriving DecidableEq, Repr

/-- JS template rendering of `item.subtype || item.level` when `subtype` is
falsy: the raw `level` value is interpolated (`0` renders as "0",
`undefined` as "undefined"). -/
def levelStr : Option Nat → String
  | some n => toString n
  | none => "undefined"

/-- JS `item.subtype || item.level`, rendered: `subtype` when truthy
(a non-empty string), otherwise the `level` value. -/
def midPart (e : IndexEntry) : String :=
  match e.subtype with
  | some s => if s = "" then levelStr e.level else s
  | none => levelStr e.level

/-- JS template rendering of a possibly-absent `title`. -/
def titleStr : Option String → String
  | some t => t
  | none => "undefined"

/-- JS `item.value || item.title`, rendered. -/
def lastPart (e : IndexEntry) : String :=
  match e.value with
  | some v => if v = "" then titleStr e.title else v
  | none => titleStr e.title

/-- The dedup key of `mergeNarrativeIndices`
(`src/src/index.tsx:420`): the template string
`type + "-" + (subtype || level) + "-" + (value || title)`. -/
def keyOf (e : IndexEntry) : String :=
  e.type ++ "-" ++ midPart e ++ "-" ++ lastPart e

/-- Inner loop of `mergeNarrativeIndices` over one input list: entries whose
key is in `seen` are skipped, the rest are kept and their keys added.  The
JS `Set` is modelled as a list used only through membership.  Returns the
final seen set and the kept entries in order. -/
def addEntries (seen : List String) : List IndexEntry → List String × List IndexEntry
  | [] => (seen, [])
  | e :: es =>
    if keyOf e ∈ seen then addEntries seen es
    else
      let r := addEntries (keyOf e :: seen) es
      (r.1, e :: r.2)

/-- Outer loop of `mergeNarrativeIndices` over the list of input lists,
threading the seen set. -/
def mergeAux (seen : List String) : List (List IndexEntry) → List IndexEntry
  | [] => []
  | idx :: rest =>
    let r := addEntries seen idx
    r.2 ++ mergeAux r.1 rest

/-- `mergeNarrativeIndices` (`src/src/index.tsx:413-429`): first-seen-order
deduplication by `keyOf` across all input lists.  (The source's `if
(!index) return` null guard is vacuous here since inputs are lists.) -/
def mergeNarrativeIndices (indices : List (List IndexEntry)) : List IndexEntry :=
  mergeAux [] indices

/-! ## Offline forensics engine: descriptors, anomaly scan, temporal scan -/

/-- One local-forensics descriptor as built in `runLocalForensics`
(`src/src/index.tsx:742-749`): `{name, type, size, lastModified, hash}`.
The source stores `lastModified` as an ISO-8601 string and every use parses
it back with `new Date(...).getTime()`; the embedding carries the parsed
millisecond value directly.  `type` is `Option String` because the engine
defensively handles an absent MIME type (`!f.type`). -/
structure LocalForensic where
  name : String
  type : Option String
  size : Nat
  lastModified : Int
  hash : String
deriving DecidableEq, Repr

/-- JS truthiness test `!f.type || f.type === ''`. -/
def typeMissing (f : LocalForensic) : Bool :=
  match f.type with
  | none => true
  | some s => s = ""

/-- JS `(size / 1024 / 1024).toFixed(2)` for a byte count: nearest multiple
of 1/100 of `size / 2^20`, ties rounded up, rendered with two decimals.
(Exact for every realizable file size; the double rounding of the JS
quotient cannot move the result at these magnitudes.) -/
def toFixed2MB (size : Nat) : String :=
  let n := (size * 200 + 1048576) / 2097152
  let frac := n % 100
  toString (n / 100) ++ "." ++ (if frac < 10 then "0" ++ toString frac else toString frac)

/-- The "missing MIME type" anomaly line (`src/src/index.tsx:550`). -/
def mimeLine (f : LocalForensic) : String :=
  "- **" ++ f.name ++ "**: Missing MIME type information"

/-- The empty-file warning line (`src/src/index.tsx:553`). -/
def emptyLine (f : LocalForensic) : String :=
  "- **" ++ f.name ++ "**: WARNING - File is empty (0 bytes)"

/-- The bulk-data-indicator line (`src/src/index.tsx:556`). -/
def largeLine (f : LocalForensic) : String :=
  "- **" ++ f.name ++ "**: Large file (" ++ toFixed2MB f.size ++ " MB) - may indicate data dump"

/-- The anomaly lines pushed for one descriptor, in source order: missing
type, then zero size, then size over 50 MiB (`src/src/index.tsx:548-558`). -/
def issuesFor (f : LocalForensic) : List String :=
  (if typeMissing f then [mimeLine f] else []) ++
  (if f.size = 0 then [emptyLine f] else []) ++
  (if 52428800 < f.size then [largeLine f] else [])

/-- `metadataIssues`: the anomaly lines accumulated over all descriptors. -/
def metadataIssues (fs : List LocalForensic) : List String :=
  fs.flatMap issuesFor

/-- The single statement emitted when no anomaly was found
(`src/src/index.tsx:564`). -/
def noAnomaliesLine : String :=
  "All files have complete metadata. No anomalies detected."

/-- The findings pushed for the metadata-anomaly section
(`src/src/index.tsx:560-565`): a header plus the joined anomaly lines, or
the single no-anomalies statement. -/
def metadataSection (fs : List LocalForensic) : List String :=
  let issues := metadataIssues fs
  if issues.isEmpty then [noAnomaliesLine]
  else ["**Metadata Anomalies Detected:**\n", String.intercalate "\n" issues]

/-- Stable ascending insertion by an integer key: an earlier element stays
before a later one with the same key. -/
def insertAsc {α : Type} (key : α → Int) (x : α) : List α → List α
  | [] => [x]
  | y :: ys => if key x ≤ key y then x :: y :: ys else y :: insertAsc key x ys

/-- Stable ascending sort by an integer key, modelling the (stable) JS
`Array.prototype.sort` with the comparator `(a, b) => key a - key b`. -/
def sortAsc {α : Type} (key : α → Int) (l : List α) : List α :=
  l.foldr (insertAsc key) []

/-- `runOfflineForensics`'s timeline sort (`src/src/index.tsx:525-527`):
descriptors sorted ascending by parsed `lastModified`. -/
def sortByLM (fs : List LocalForensic) : List LocalForensic :=
  sortAsc (fun f => f.lastModified) fs

/-- JS `Math.round(diffMs / 3600000)` for a non-negative millisecond gap:
floor of the hour count plus one half. -/
def roundHours (d : Int) : Int :=
  (2 * d + 3600000) / 7200000

/-- One temporal-gap line (`src/src/index.tsx:591`). -/
def gapLine (a b : LocalForensic) : String :=
  "- Gap of " ++ toString (roundHours (b.lastModified - a.lastModified)) ++
  " hours between \"" ++ a.name ++ "\" and \"" ++ b.name ++ "\""

/-- The temporal-gap scan (`src/src/index.tsx:583-593`): over adjacent pairs
of the (already sorted) descriptor list, a gap line is pushed whenever the
gap exceeds 24 hours (`diffHours > 24`, i.e. more than 86400000 ms). -/
def timeGapsOf : List LocalForensic → List String
  | a :: b :: rest =>
    (if 86400000 < b.lastModified - a.lastModified then [gapLine a b] else []) ++
    timeGapsOf (b :: rest)
  | _ => []

/-- The gap line an adjacent pair contributes, if any: a reformulation of
one step of `timeGapsOf` used to characterize the whole scan. -/
def gapOf (p : LocalForensic × LocalForensic) : Option String :=
  if 86400000 < p.2.lastModified - p.1.lastModified then some (gapLine p.1 p.2) else none

/-- The findings pushed for the temporal-anomaly block
(`src/src/index.tsx:595-599`): nothing at all when no gap exceeds the
threshold, else a header, the joined gap lines and a blank line. -/
def temporalSection (fs : List LocalForensic) : List String :=
  let gaps := timeGapsOf (sortByLM fs)
  if gaps.isEmpty then []
  else ["**Temporal Anomalies:**\n", String.intercalate "\n" gaps, ""]

/-! ## Storage layer: JS objects, `IndexedDBStorage`, `StorageManager` -/

/-- A JS property value as it occurs in the persisted records of this
program: strings, numbers, an array of evidence names, a narrative index,
binary data (an `ArrayBuffer` as its byte list), a free-form metadata
value, or `undefined`. -/
inductive FVal where
  | s : String → FVal
  | n : Int → FVal
  | strs : List String → FVal
  | entries : List IndexEntry → FVal
  | bytes : List Nat → FVal
  | undef : FVal
deriving DecidableEq, Repr

/-- A JS object: an association list of properties (keys unique by
construction, as in JS). -/
abbrev Obj : Type := List (String × FVal)

/-- Property read `o.k`: the first binding for `k`. -/
def getField (o : Obj) (k : String) : Option FVal :=
  (o.find? (fun p => p.1 = k)).map (fun p => p.2)

/-- Property write / spread override `{...o, k: v}`: replace the first
binding for `k`, else append a new one. -/
def setField (o : Obj) (k : String) (v : FVal) : Obj :=
  match o with
  | [] => [(k, v)]
  | p :: rest => if p.1 = k then (k, v) :: rest else p :: setField rest k v

/-- JS template interpolation of a property value (`${e.fileSize}`):
numbers render in decimal, strings as themselves, arrays comma-joined,
`undefined` as "undefined".  An absent property also renders "undefined". -/
def fvalStr : Option FVal → String
  | some (FVal.s s) => s
  | some (FVal.n i) => toString i
  | some (FVal.strs l) => String.intercalate "," l
  | some (FVal.entries _) => "[object Object]"
  | some (FVal.bytes _) => "[object ArrayBuffer]"
  | some FVal.undef => "undefined"
  | none => "undefined"

/-- The three IndexedDB object stores of `VerumOmnisDB`
(`src/unnamed/part_000:55-69`): `reports`, `evidence_files` (both
append-only with an auto-increment key, modelled by list order) and
`case_metadata` (keyed by the `caseId` property). -/
structure DB where
  reports : List Obj
  evidence_files : List Obj
  case_metadata : List Obj
deriving DecidableEq, Repr

/-- Which primitive local-store writes fail in a given run: the model of
IndexedDB transaction errors (`tx.onerror`). -/
structure Oracle where
  reportWriteFails : Bool
  evidenceWriteFails : Bool
  metadataWriteFails : Bool
deriving DecidableEq, Repr

/-- The run in which every local write succeeds. -/
def okOracle : Oracle := ⟨false, false, false⟩

/-- A StorageError: a local persistence write failure, tagged by the store
it hit. -/
inductive StorageErr where
  | reportWrite
  | evidenceWrite
  | metadataWrite
deriving DecidableEq, Repr

/-- The record actually handed to `store.add` by
`IndexedDBStorage.saveReport` / `saveEvidence`
(`src/unnamed/part_000:82,109`): `{ ...data, caseId, timestamp: now }`. -/
def storedRecord (data : Obj) (cid now : String) : Obj :=
  setField (setField data "caseId" (FVal.s cid)) "timestamp" (FVal.s now)

/-- Effect of a successful `IndexedDBStorage.saveReport`
(`src/unnamed/part_000:77-86`). -/
def idbSaveReportAction (db : DB) (cid : String) (data : Obj) (now : String) : DB :=
  { db with reports := db.reports ++ [storedRecord data cid now] }

/-- `IndexedDBStorage.saveReport` with its failure channel. -/
def idbSaveReport (o : Oracle) (db : DB) (cid : String) (data : Obj) (now : String) :
    Except StorageErr DB :=
  if o.reportWriteFails then Except.error StorageErr.reportWrite
  else Except.ok (idbSaveReportAction db cid data now)

/-- Effect of a successful `IndexedDBStorage.saveEvidence`
(`src/unnamed/part_000:104-113`). -/
def idbSaveEvidenceAction (db : DB) (cid : String) (data : Obj) (now : String) : DB :=
  { db with evidence_files := db.evidence_files ++ [storedRecord data cid now] }

/-- `IndexedDBStorage.saveEvidence` with its failure channel. -/
def idbSaveEvidence (o : Oracle) (db : DB) (cid : String) (data : Obj) (now : String) :
    Except StorageErr DB :=
  if o.evidenceWriteFails then Except.error StorageErr.evidenceWrite
  else Except.ok (idbSaveEvidenceAction db cid data now)

/-- IndexedDB `store.put` on a store with `keyPath: 'caseId'`: replace the
record with the same key, else append. -/
def putByCase (metas : List Obj) (rec : Obj) : List Obj :=
  match metas with
  | [] => [rec]
  | m :: rest =>
    if getField m "caseId" = getField rec "caseId" then rec :: rest
    else m :: putByCase rest rec

/-- Effect of a successful `IndexedDBStorage.saveCaseMetadata`
(`src/unnamed/part_000:127-136`): `store.put({ ...data, caseId })`. -/
def idbSaveCaseMetadataAction (db : DB) (cid : String) (data : Obj) : DB :=
  { db with case_metadata := putByCase db.case_metadata (setField data "caseId" (FVal.s cid)) }

/-- `IndexedDBStorage.saveCaseMetadata` with its failure channel. -/
def idbSaveCaseMetadata (o : Oracle) (db : DB) (cid : String) (data : Obj) :
    Except StorageErr DB :=
  if o.metadataWriteFails then Except.error StorageErr.metadataWrite
  else Except.ok (idbSaveCaseMetadataAction db cid data)

/-- The sort key used by `IndexedDBStorage.getReports`
(`src/unnamed/part_000:97`): `new Date(r.timestamp).getTime()` under the
injected parser `pt`. -/
def tsKey (pt : String → Int) (o : Obj) : Int :=
  match getField o "timestamp" with
  | some (FVal.s t) => pt t
  | _ => 0

/-- `IndexedDBStorage.getReports` (`src/unnamed/part_000:88-102`): all
records of the `reports` store whose `caseId` property equals `cid`, sorted
ascending by parsed `timestamp`. -/
def getReports (pt : String → Int) (db : DB) (cid : String) : List Obj :=
  sortAsc (tsKey pt) (db.reports.filter (fun r => getField r "caseId" = some (FVal.s cid)))

/-- `IndexedDBStorage.getEvidence` (`src/unnamed/part_000:115-125`): all
records of the `evidence_files` store for the case, in store order. -/
def getEvidence (db : DB) (cid : String) : List Obj :=
  db.evidence_files.filter (fun r => getField r "caseId" = some (FVal.s cid))

/-- `IndexedDBStorage.getCaseMetadata` (`src/unnamed/part_000:138-147`):
the `case_metadata` record keyed by `cid`, or `none`. -/
def getCaseMeta (db : DB) (cid : String) : Option Obj :=
  db.case_metadata.find? (fun m => getField m "caseId" = some (FVal.s cid))

/-- A field of the stored Case aggregate for `cid`, or `none` when either
the aggregate or the field is absent. -/
def metaField (db : DB) (cid : String) (k : String) : Option FVal :=
  (getCaseMeta db cid).bind (fun m => getField m k)

/-- Accumulator loop of `IndexedDBStorage.getAllCases`
(`src/unnamed/part_000:149-162`): distinct values in first-seen order,
modelling `Array.from(new Set(...))`. -/
def firstDedupAux (seen : List String) : List String → List String
  | [] => []
  | c :: cs => if c ∈ seen then firstDedupAux seen cs else c :: firstDedupAux (c :: seen) cs

/-- `IndexedDBStorage.getAllCases`: the distinct non-empty (`filter
(Boolean)`) string `caseId` properties of stored reports. -/
def getAllCases (db : DB) : List String :=
  firstDedupAux []
    (db.reports.filterMap (fun r =>
      match getField r "caseId" with
      | some (FVal.s c) => if c = "" then none else some c
      | _ => none))

/-- Number of Report records persisted for the case. -/
def countReports (db : DB) (cid : String) : Nat :=
  (db.reports.filter (fun r => getField r "caseId" = some (FVal.s cid))).length

/-- Number of EvidenceFile records persisted for the case. -/
def countEvidence (db : DB) (cid : String) : Nat :=
  (getEvidence db cid).length

/-- `StorageManager.saveReport` (`src/unnamed/part_000:231-245`): builds
`data = { content, evidence, ...metadata }` and writes it through the
primary store; a local failure propagates.  (The optional Firebase sync
touches no local state and swallows its own errors.) -/
def smSaveReport (o : Oracle) (db : DB) (cid content : String) (ev : List String)
    (metadata : Obj) (now : String) : Except StorageErr DB :=
  let data : Obj :=
    metadata.foldl (fun acc kv => setField acc kv.1 kv.2)
      [("content", FVal.s content), ("evidence", FVal.strs ev)]
  idbSaveReport o db cid data now

/-- A browser `File` as this program consumes it: name, MIME type and
binary content.  `file.size` is by definition the byte count of the
content. -/
structure JsFile where
  name : String
  type : String
  bytes : List Nat
deriving DecidableEq, Repr

/-- `StorageManager.saveEvidence` (`src/unnamed/part_000:251-269`): builds
the EvidenceFile record (including the binary payload) and writes it
through the primary store; a local failure propagates. -/
def smSaveEvidence (o : Oracle) (db : DB) (cid : String) (file : JsFile)
    (fileHash : String) (metadata : FVal) (now : String) : Except StorageErr DB :=
  let data : Obj :=
    [("fileName", FVal.s file.name), ("fileType", FVal.s file.type),
     ("fileSize", FVal.n file.bytes.length), ("fileHash", FVal.s fileHash),
     ("binaryData", FVal.bytes file.bytes), ("metadata", metadata)]
  idbSaveEvidence o db cid data now

/-- `StorageManager.saveCaseMetadata` (`src/unnamed/part_000:275-281`):
writes through the primary store; a local failure propagates. -/
def smSaveCaseMetadata (o : Oracle) (db : DB) (cid : String) (metadata : Obj) :
    Except StorageErr DB :=
  idbSaveCaseMetadata o db cid metadata

/-- The `narrativeIndex` of a stored report, as read back by
`saveReportToDB`: `r.narrativeIndex || []`. -/
def reportNarrativeIndex (r : Obj) : List IndexEntry :=
  match getField r "narrativeIndex" with
  | some (FVal.entries l) => l
  | _ => []

/-- `saveReportToDB` (`src/src/index.tsx:306-336`).  Empty `caseId`
returns immediately.  Otherwise, inside a `try` block: hash the content,
extract its narrative index, save the report, re-read all reports of the
case and upsert the Case aggregate with `reportCount`, `evidenceCount`
(the length of the `evidence` argument), `lastReportHash`, the merged
`narrativeIndex` and `updatedAt`.  The `catch` block only logs.  Result:
the final local state, the caller-visible outcome (the promise never
rejects, hence always `Except.ok ()`), and the error logged by
`console.error`, if any. -/
def saveReportToDB (o : Oracle) (pt : String → Int) (hashFn : String → String)
    (extract : String → List IndexEntry) (db : DB) (cid content : String)
    (ev : List String) (now : String) : DB × Except StorageErr Unit × Option StorageErr :=
  if cid = "" then (db, Except.ok (), none)
  else
    let reportHash := hashFn content
    let ni := extract content
    match smSaveReport o db cid content ev
        [("reportHash", FVal.s reportHash), ("narrativeIndex", FVal.entries ni)] now with
    | Except.error e => (db, Except.ok (), some e)
    | Except.ok db1 =>
      let reports := getReports pt db1 cid
      let meta : Obj :=
        [("reportCount", FVal.n reports.length),
         ("evidenceCount", FVal.n ev.length),
         ("lastReportHash", FVal.s reportHash),
         ("narrativeIndex", FVal.entries (mergeNarrativeIndices (reports.map reportNarrativeIndex))),
         ("updatedAt", FVal.s now)]
      match smSaveCaseMetadata o db1 cid meta with
      | Except.error e => (db1, Except.ok (), some e)
      | Except.ok db2 => (db2, Except.ok (), none)

/-- `saveEvidenceFileToDB` (`src/src/index.tsx:252-259`).  Empty `caseId`
returns immediately; otherwise the evidence is saved inside a `try` whose
`catch` only logs.  Result components as in `saveReportToDB`. -/
def saveEvidenceFileToDB (o : Oracle) (db : DB) (cid : String) (file : JsFile)
    (fileHash : String) (metadata : FVal) (now : String) :
    DB × Except StorageErr Unit × Option StorageErr :=
  if cid = "" then (db, Except.ok (), none)
  else
    match smSaveEvidence o db cid file fileHash metadata now with
    | Except.error e => (db, Except.ok (), some e)
    | Except.ok db1 => (db1, Except.ok (), none)

/-! ## `StorageManager.exportAllData` -/

/-- The size-derived placeholder put in place of the binary payload
(`src/unnamed/part_000:305`): the template `<BINARY ${e.fileSize} bytes>`. -/
def binaryPlaceholder (e : Obj) : String :=
  "<BINARY " ++ fvalStr (getField e "fileSize") ++ " bytes>"

/-- The per-record redaction of `exportAllData`:
`{ ...e, binaryData: placeholder }`. -/
def redactEvidence (e : Obj) : Obj :=
  setField e "binaryData" (FVal.s (binaryPlaceholder e))

/-- One case's slice of the export document. -/
structure CaseExport where
  reports : List Obj
  evidence : List Obj
  metadata : Option Obj
deriving DecidableEq, Repr

/-- The export document: per-case slices keyed by case id, plus the
generation timestamp. -/
structure ExportData where
  cases : List (String × CaseExport)
  exportedAt : String
deriving DecidableEq, Repr

/-- `StorageManager.exportAllData` (`src/unnamed/part_000:292-312`): for
every known case, its reports, its evidence with `binaryData` replaced by
the size placeholder, and its Case aggregate. -/
def exportAllData (pt : String → Int) (db : DB) (now : String) : ExportData :=
  { cases :=
      (getAllCases db).map (fun cid =>
        (cid,
         { reports := getReports pt db cid,
           evidence := (getEvidence db cid).map redactEvidence,
           metadata := getCaseMeta db cid })),
    exportedAt := now }

/-- Two evidence records that agree on everything except the value of
their `binaryData` property (in particular their stored sizes and hashes
agree). -/
def sameExceptBinary (e1 e2 : Obj) : Prop :=
  setField e1 "binaryData" FVal.undef = setField e2 "binaryData" FVal.undef

instance (e1 e2 : Obj) : Decidable (sameExceptBinary e1 e2) := by
  unfold sameExceptBinary
  infer_instance

/-! ## Helper lemmas about JS objects -/

theorem getField_setField_self (o : Obj) (k : String) (v : FVal) :
    getField (setField o k v) k = some v := by
  induction o with
  | nil => simp [setField, getField]
  | cons p rest ih =>
    by_cases h : p.1 = k
    · simp [setField, h, getField]
    · simp only [setField, if_neg h]
      simpa [getField, List.find?, h] using ih

theorem getField_setField_ne (o : Obj) (k k' : String) (v : FVal) (h : k' ≠ k) :
    getField (setField o k v) k' = getField o k' := by
  induction o with
  | nil => simp [setField, getField, List.find?, Ne.symm h]
  | cons p rest ih =>
    by_cases hp : p.1 = k
    · subst hp
      simp [setField, getField, List.find?, Ne.symm h]
    · simp only [setField, if_neg hp]
      by_cases hp' : p.1 = k'
      · simp [getField, List.find?, hp']
      · simpa [getField, List.find?, hp'] using ih

theorem setField_setField_self (o : Obj) (k : String) (a b : FVal) :
    setField (setField o k a) k b = setField o k b := by
  induction o with
  | nil => simp [setField]
  | cons p rest ih =>
    by_cases h : p.1 = k
    · simp [setField, h]
    · simp [setField, h, ih]

theorem getField_storedRecord_caseId (data : Obj) (cid now : String) :
    getField (storedRecord data cid now) "caseId" = some (FVal.s cid) := by
  unfold storedRecord
  rw [getField_setField_ne _ _ _ _ (by decide)]
  exact getField_setField_self _ _ _

theorem getField_storedRecord_timestamp (data : Obj) (cid now : String) :
    getField (storedRecord data cid now) "timestamp" = some (FVal.s now) := by
  unfold storedRecord
  exact getField_setField_self _ _ _

/-! ## Helper lemmas about `putByCase` and `getCaseMeta` -/

theorem find?_putByCase_self (l : List Obj) (rec : Obj) (cid : String)
    (h : getField rec "caseId" = some (FVal.s cid)) :
    (putByCase l rec).find? (fun m => getField m "caseId" = some (FVal.s cid)) = some rec := by
  induction l with
  | nil => simp [putByCase, List.find?, h]
  | cons m rest ih =>
    by_cases hm : getField m "caseId" = getField rec "caseId"
    · simp [putByCase, hm, List.find?, h]
    · rw [h] at hm
      simp [putByCase, h, hm, List.find?, ih]

theorem find?_putByCase_ne (l : List Obj) (rec : Obj) (cid cid' : String)
    (hrec : getField rec "caseId" = some (FVal.s cid)) (h : cid' ≠ cid) :
    (putByCase l rec).find? (fun m => getField m "caseId" = some (FVal.s cid'))
      = l.find? (fun m => getField m "caseId" = some (FVal.s cid')) := by
  have hne : ¬ getField rec "caseId" = some (FVal.s cid') := by
    rw [hrec]
    intro hc
    exact h (by injection hc with hv; injection hv with hs; exact hs.symm)
  induction l with
  | nil =>
    rw [putByCase, List.find?_cons_of_neg _ (by simpa using hne)]
  | cons m rest ih =>
    by_cases hm : getField m "caseId" = getField rec "caseId"
    · rw [putByCase, if_pos hm]
      have hmne : ¬ getField m "caseId" = some (FVal.s cid') := by
        rw [hm]
        exact hne
      rw [List.find?_cons_of_neg _ (by simpa using hne),
        List.find?_cons_of_neg _ (by simpa using hmne)]
    · rw [putByCase, if_neg hm]
      by_cases hm' : getField m "caseId" = some (FVal.s cid')
      · rw [List.find?_cons_of_pos _ (by simpa using hm'),
          List.find?_cons_of_pos _ (by simpa using hm')]
      · rw [List.find?_cons_of_neg _ (by simpa using hm'),
          List.find?_cons_of_neg _ (by simpa using hm')]
        exact ih

/-! ## Helper lemmas about the stable sort -/

theorem length_insertAsc {α : Type} (key : α → Int) (x : α) (l : List α) :
    (insertAsc key x l).length = l.length + 1 := by
  induction l with
  | nil => simp [insertAsc]
  | cons y ys ih =>
    by_cases h : key x ≤ key y
    · simp [insertAsc, h]
    · simp [insertAsc, h, ih]

theorem length_sortAsc {α : Type} (key : α → Int) (l : List α) :
    (sortAsc key l).length = l.length := by
  induction l with
  | nil => rfl
  | cons y ys ih => simp [sortAsc, List.foldr] at ih ⊢; simp [length_insertAsc, ih]

theorem mem_insertAsc {α : Type} (key : α → Int) (x z : α) (l : List α) :
    z ∈ insertAsc key x l ↔ z = x ∨ z ∈ l := by
  induction l with
  | nil => simp [insertAsc]
  | cons y ys ih =>
    by_cases h : key x ≤ key y
    · simp [insertAsc, h]
    · simp only [insertAsc, if_neg h, List.mem_cons, ih]
      tauto

theorem sorted_insertAsc {α : Type} (key : α → Int) (x : α) (l : List α)
    (h : l.Pairwise (fun a b => key a ≤ key b)) :
    (insertAsc key x l).Pairwise (fun a b => key a ≤ key b) := by
  induction l with
  | nil => simp [insertAsc]
  | cons y ys ih =>
    rcases List.pairwise_cons.mp h with ⟨hy, hys⟩
    by_cases hxy : key x ≤ key y
    · rw [insertAsc, if_pos hxy]
      refine List.pairwise_cons.mpr ⟨?_, h⟩
      intro z hz
      rcases List.mem_cons.mp hz with hz | hz
      · subst hz
        exact hxy
      · exact le_trans hxy (hy z hz)
    · rw [insertAsc, if_neg hxy]
      refine List.pairwise_cons.mpr ⟨?_, ih hys⟩
      intro z hz
      rcases (mem_insertAsc key x z ys).mp hz with hz | hz
      · subst hz
        exact le_of_lt (lt_of_not_le hxy)
      · exact hy z hz

theorem sorted_sortAsc {α : Type} (key : α → Int) (l : List α) :
    (sortAsc key l).Pairwise (fun a b => key a ≤ key b) := by
  induction l with
  | nil => exact List.Pairwise.nil
  | cons y ys ih => exact sorted_insertAsc key y (sortAsc key ys) ih

/-! ## Helper lemmas about `mergeNarrativeIndices` -/

theorem mem_keys_addEntries (l : List IndexEntry) (seen : List String) (k : String) :
    k ∈ (addEntries seen l).2.map keyOf ↔ k ∉ seen ∧ ∃ e ∈ l, keyOf e = k := by
  induction l generalizing seen with
  | nil => simp [addEntries]
  | cons e es ih =>
    by_cases h : keyOf e ∈ seen
    · rw [addEntries, if_pos h, ih]
      constructor
      · rintro ⟨hk, x, hx, hkx⟩
        exact ⟨hk, x, List.mem_cons_of_mem e hx, hkx⟩
      · rintro ⟨hk, x, hx, hkx⟩
        rcases List.mem_cons.mp hx with rfl | hx
        · exact absurd (hkx ▸ h) hk
        · exact ⟨hk, x, hx, hkx⟩
    · rw [addEntries, if_neg h]
      simp only [List.map_cons, List.mem_cons, ih]
      constructor
      · rintro (rfl | ⟨hk, x, hx, hkx⟩)
        · exact ⟨h, e, Or.inl rfl, rfl⟩
        · exact ⟨fun hs => hk (Or.inr hs), x, Or.inr hx, hkx⟩
      · rintro ⟨hk, x, hx, hkx⟩
        rcases hx with rfl | hx
        · exact Or.inl hkx.symm
        · by_cases hke : k = keyOf e
          · exact Or.inl hke
          · exact Or.inr ⟨by simp [hke, hk], x, hx, hkx⟩

theorem mem_fst_addEntries (l : List IndexEntry) (seen : List String) (k : String) :
    k ∈ (addEntries seen l).1 ↔ k ∈ seen ∨ ∃ e ∈ l, keyOf e = k := by
  induction l generalizing seen with
  | nil => simp [addEntries]
  | cons e es ih =>
    by_cases h : keyOf e ∈ seen
    · rw [addEntries, if_pos h, ih]
      constructor
      · rintro (hs | ⟨x, hx, hkx⟩)
        · exact Or.inl hs
        · exact Or.inr ⟨x, List.mem_cons_of_mem e hx, hkx⟩
      · rintro (hs | ⟨x, hx, hkx⟩)
        · exact Or.inl hs
        · rcases List.mem_cons.mp hx with rfl | hx
          · exact Or.inl (hkx ▸ h)
          · exact Or.inr ⟨x, hx, hkx⟩
    · rw [addEntries, if_neg h]
      show k ∈ (addEntries (keyOf e :: seen) es).1 ↔ _
      rw [ih]
      simp only [List.mem_cons]
      constructor
      · rintro ((rfl | hs) | ⟨x, hx, hkx⟩)
        · exact Or.inr ⟨e, Or.inl rfl, rfl⟩
        · exact Or.inl hs
        · exact Or.inr ⟨x, Or.inr hx, hkx⟩
      · rintro (hs | ⟨x, hx, hkx⟩)
        · exact Or.inl (Or.inr hs)
        · rcases hx with rfl | hx
          · exact Or.inl (Or.inl hkx.symm)
          · exact Or.inr ⟨x, hx, hkx⟩

theorem nodup_keys_addEntries (l : List IndexEntry) (seen : List String) :
    ((addEntries seen l).2.map keyOf).Nodup := by
  induction l generalizing seen with
  | nil => simp [addEntries]
  | cons e es ih =>
    by_cases h : keyOf e ∈ seen
    · rw [addEntries, if_pos h]
      exact ih seen
    · rw [addEntries, if_neg h]
      simp only [List.map_cons]
      refine List.nodup_cons.mpr ⟨?_, ih _⟩
      intro hmem
      rcases (mem_keys_addEntries es (keyOf e :: seen) (keyOf e)).mp hmem with ⟨hk, _⟩
      exact hk (List.mem_cons_self _ _)

theorem addEntries_fix (l : List IndexEntry) (seen : List String)
    (hn : (l.map keyOf).Nodup) (hs : ∀ k ∈ l.map keyOf, k ∉ seen) :
    (addEntries seen l).2 = l := by
  induction l generalizing seen with
  | nil => simp [addEntries]
  | cons e es ih =>
    have he : keyOf e ∉ seen := hs (keyOf e) (by simp)
    rw [addEntries, if_neg he]
    show e :: (addEntries (keyOf e :: seen) es).2 = e :: es
    have hn' := hn
    simp only [List.map_cons, List.nodup_cons] at hn'
    rcases hn' with ⟨hne, hnes⟩
    congr 1
    refine ih _ hnes ?_
    intro k hk
    simp only [List.mem_cons]
    rintro (rfl | hkseen)
    · exact hne hk
    · exact hs k (by simp [hk]) hkseen

theorem mem_keys_mergeAux (ls : List (List IndexEntry)) (seen : List String) (k : String) :
    k ∈ (mergeAux seen ls).map keyOf ↔ k ∉ seen ∧ ∃ l ∈ ls, ∃ e ∈ l, keyOf e = k := by
  induction ls generalizing seen with
  | nil => simp [mergeAux]
  | cons idx rest ih =>
    show k ∈ ((addEntries seen idx).2 ++ mergeAux (addEntries seen idx).1 rest).map keyOf ↔ _
    simp only [List.map_append, List.mem_append]
    rw [mem_keys_addEntries, ih]
    constructor
    · rintro (⟨hk, he⟩ | ⟨hk, l, hlmem, he⟩)
      · exact ⟨hk, idx, List.mem_cons_self _ _, he⟩
      · rw [mem_fst_addEntries] at hk
        push_neg at hk
        exact ⟨hk.1, l, List.mem_cons_of_mem _ hlmem, he⟩
    · rintro ⟨hk, l, hlmem, he⟩
      rcases List.mem_cons.mp hlmem with rfl | hlmem
      · exact Or.inl ⟨hk, he⟩
      · by_cases hidx : ∃ e ∈ idx, keyOf e = k
        · exact Or.inl ⟨hk, hidx⟩
        · refine Or.inr ⟨?_, l, hlmem, he⟩
          rw [mem_fst_addEntries]
          push_neg at hidx ⊢
          exact ⟨hk, hidx⟩

theorem nodup_keys_mergeAux (ls : List (List IndexEntry)) (seen : List String) :
    ((mergeAux seen ls).map keyOf).Nodup := by
  induction ls generalizing seen with
  | nil => simp [mergeAux]
  | cons idx rest ih =>
    show (((addEntries seen idx).2 ++ mergeAux (addEntries seen idx).1 rest).map keyOf).Nodup
    simp only [List.map_append]
    refine List.Nodup.append (nodup_keys_addEntries idx seen) (ih _) ?_
    intro k hk1 hk2
    rcases (mem_keys_addEntries idx seen k).mp hk1 with ⟨_, he⟩
    rcases (mem_keys_mergeAux rest _ k).mp hk2 with ⟨hnf, _⟩
    exact hnf ((mem_fst_addEntries idx seen k).mpr (Or.inr he))

/-! ## Claims C4 and C5: algebraic properties of the merge -/

theorem mergeAux_singleton (X : List IndexEntry) :
    mergeAux [] [X] = (addEntries [] X).2 := by
  show (addEntries [] X).2 ++ mergeAux (addEntries [] X).1 [] = _
  simp [mergeAux]

/-- C4: merging is idempotent — re-merging the single-element list holding
`merge([A])` returns `merge([A])` itself, for every fact-list `A`. -/
theorem c4_merge_idempotent (A : List IndexEntry) :
    mergeNarrativeIndices [mergeNarrativeIndices [A]] = mergeNarrativeIndices [A] := by
  unfold mergeNarrativeIndices
  rw [mergeAux_singleton, mergeAux_singleton]
  refine addEntries_fix _ _ (nodup_keys_addEntries A []) ?_
  intro k _
  exact List.not_mem_nil k

/-- C5: the set of dedup keys of the merge result is exactly the set of
keys occurring in the input lists (no key dropped), it is invariant under
any permutation of the input lists, and neither result repeats a key. -/
theorem c5_merge_key_set_invariance (ls ls' : List (List IndexEntry)) (h : ls.Perm ls') :
    (∀ k, k ∈ (mergeNarrativeIndices ls).map keyOf ↔ ∃ l ∈ ls, ∃ e ∈ l, keyOf e = k) ∧
    (∀ k, k ∈ (mergeNarrativeIndices ls).map keyOf ↔ k ∈ (mergeNarrativeIndices ls').map keyOf) ∧
    ((mergeNarrativeIndices ls).map keyOf).Nodup ∧
    ((mergeNarrativeIndices ls').map keyOf).Nodup := by
  have hmem : ∀ (L : List (List IndexEntry)) (k : String),
      k ∈ (mergeNarrativeIndices L).map keyOf ↔ ∃ l ∈ L, ∃ e ∈ l, keyOf e = k := by
    intro L k
    unfold mergeNarrativeIndices
    rw [mem_keys_mergeAux]
    simp
  refine ⟨hmem ls, ?_, nodup_keys_mergeAux ls [], nodup_keys_mergeAux ls' []⟩
  intro k
  rw [hmem ls, hmem ls']
  constructor
  · rintro ⟨l, hl, he⟩
    exact ⟨l, h.mem_iff.mp hl, he⟩
  · rintro ⟨l, hl, he⟩
    exact ⟨l, h.mem_iff.mpr hl, he⟩

/-! ## Claim C7: the metadata-anomaly scan -/

/-- C7: in the offline engine's metadata-anomaly section, every descriptor
with size 0 yields its "WARNING - File is empty" line, every descriptor
with a missing or empty MIME type yields its "Missing MIME type" line,
every descriptor over 50 MiB yields its bulk-data-indicator line, and when
no descriptor meets any of the three conditions the section is the single
no-anomalies statement. -/
theorem c7_metadata_anomalies (fs : List LocalForensic) :
    (∀ f ∈ fs, f.size = 0 → emptyLine f ∈ metadataIssues fs) ∧
    (∀ f ∈ fs, typeMissing f = true → mimeLine f ∈ metadataIssues fs) ∧
    (∀ f ∈ fs, 52428800 < f.size → largeLine f ∈ metadataIssues fs) ∧
    ((∀ f ∈ fs, f.size ≠ 0 ∧ typeMissing f = false ∧ ¬ 52428800 < f.size) →
      metadataSection fs = [noAnomaliesLine]) := by
  refine ⟨?_, ?_, ?_, ?_⟩
  · intro f hf hsize
    exact List.mem_flatMap.mpr ⟨f, hf, by simp [issuesFor, hsize]⟩
  · intro f hf htype
    exact List.mem_flatMap.mpr ⟨f, hf, by simp [issuesFor, htype]⟩
  · intro f hf hlarge
    refine List.mem_flatMap.mpr ⟨f, hf, ?_⟩
    have hns : f.size ≠ 0 := by omega
    simp [issuesFor, hlarge, hns]
  · intro h
    have hnil : metadataIssues fs = [] := by
      refine List.flatMap_eq_nil_iff.mpr ?_
      intro f hf
      rcases h f hf with ⟨h0, ht, hl⟩
      simp [issuesFor, h0, ht, hl]
    simp [metadataSection, hnil]

/-- Concrete zero-size descriptor with an empty MIME type (the evidence
file "B" of the spec's end-to-end scenario, 30 hours after "A"). -/
def fileB30 : LocalForensic :=
  { name := "B", type := some "", size := 0, lastModified := 108000000, hash := "hb" }

/-- Concrete well-formed PDF descriptor at time zero. -/
def fileA : LocalForensic :=
  { name := "A", type := some "application/pdf", size := 1024, lastModified := 0, hash := "ha" }

/-- Concrete descriptor one hour after `fileA`. -/
def fileB1 : LocalForensic :=
  { name := "B", type := some "application/pdf", size := 2048, lastModified := 3600000, hash := "hc" }

theorem c7_metadata_anomalies_witness :
    fileB30 ∈ [fileA, fileB30] ∧ fileB30.size = 0 ∧
    emptyLine fileB30 ∈ metadataIssues [fileA, fileB30] :=
  ⟨by decide, by decide,
    (c7_metadata_anomalies [fileA, fileB30]).1 fileB30 (by decide) (by decide)⟩

/-! ## Claim C8: the temporal-gap scan -/

theorem timeGapsOf_eq_filterMap :
    ∀ l : List LocalForensic, timeGapsOf l = (l.zip l.tail).filterMap gapOf
  | [] => rfl
  | [_] => rfl
  | a :: b :: rest => by
    have ih := timeGapsOf_eq_filterMap (b :: rest)
    rw [timeGapsOf]
    simp only [List.tail_cons, List.zip_cons_cons, List.filterMap_cons]
    rw [ih]
    unfold gapOf
    by_cases h : (86400000 : Int) < b.lastModified - a.lastModified
    · simp [h]
    · simp [h]

/-- C8: over the descriptors sorted ascending by `lastModified`, the
temporal-gap lines are exactly one `gapLine` (which states the gap rounded
to whole hours) per adjacent pair more than 24 hours apart; a pair at most
24 hours apart contributes nothing; when no adjacent pair exceeds 24 hours
the temporal-anomaly block is absent entirely; and concretely, two
descriptors 30 hours apart yield the single line "- Gap of 30 hours
between ..." while two descriptors 1 hour apart yield no line. -/
theorem c8_temporal_gaps (fs : List LocalForensic) :
    timeGapsOf (sortByLM fs)
        = ((sortByLM fs).zip (sortByLM fs).tail).filterMap gapOf ∧
    (sortByLM fs).Pairwise (fun a b => a.lastModified ≤ b.lastModified) ∧
    (∀ p ∈ (sortByLM fs).zip (sortByLM fs).tail,
        86400000 < p.2.lastModified - p.1.lastModified →
          gapLine p.1 p.2 ∈ timeGapsOf (sortByLM fs)) ∧
    ((∀ p ∈ (sortByLM fs).zip (sortByLM fs).tail,
        p.2.lastModified - p.1.lastModified ≤ 86400000) → temporalSection fs = []) ∧
    timeGapsOf (sortByLM [fileB30, fileA]) = ["- Gap of 30 hours between \"A\" and \"B\""] ∧
    timeGapsOf (sortByLM [fileA, fileB1]) = [] := by
  refine ⟨timeGapsOf_eq_filterMap _, sorted_sortAsc _ fs, ?_, ?_, by decide, by decide⟩
  · intro p hp hgap
    rw [timeGapsOf_eq_filterMap]
    refine List.mem_filterMap.mpr ⟨p, hp, ?_⟩
    unfold gapOf
    rw [if_pos hgap]
  · intro h
    have hnil : timeGapsOf (sortByLM fs) = [] := by
      rw [timeGapsOf_eq_filterMap]
      refine List.filterMap_eq_nil_iff.mpr ?_
      intro p hp
      unfold gapOf
      rw [if_neg (not_lt.mpr (h p hp))]
    simp [temporalSection, hnil]

theorem c8_temporal_gaps_witness :
    (∀ p ∈ (sortByLM [fileA, fileB1]).zip (sortByLM [fileA, fileB1]).tail,
        p.2.lastModified - p.1.lastModified ≤ 86400000) ∧
    temporalSection [fileA, fileB1] = [] :=
  ⟨by decide, (c8_temporal_gaps [fileA, fileB1]).2.2.2.1 (by decide)⟩

/-! ## Concrete fixtures shared by the storage claims -/

/-- Trivial timestamp parser (timestamps are opaque to every claim). -/
def pt0 : String → Int := fun _ => 0

/-- Trivial digest stand-in for concrete runs. -/
def hf0 : String → String := fun _ => "sha256"

/-- Trivial extraction stand-in for concrete runs. -/
def ex0 : String → List IndexEntry := fun _ => []

/-- The empty local store. -/
def emptyDB : DB := ⟨[], [], []⟩

/-- A run in which the primitive report write fails. -/
def failReportOracle : Oracle := ⟨true, false, false⟩

/-- A run in which the primitive report and evidence writes both fail. -/
def failBothOracle : Oracle := ⟨true, true, false⟩

/-- A small concrete evidence file. -/
def file0 : JsFile := ⟨"a.pdf", "application/pdf", [1, 2, 3]⟩

/-! ## Claim C9: empty-identifier writes are silent no-ops -/

/-- C9: a report or evidence write issued with an empty caseId is a silent
no-op — both wrappers return immediately, the stored state is unchanged,
the caller sees success, and nothing is even logged. -/
theorem c9_empty_caseid_noop (o : Oracle) (pt : String → Int) (hashFn : String → String)
    (extract : String → List IndexEntry) (db : DB) (content : String) (ev : List String)
    (now : String) (file : JsFile) (fileHash : String) (metadata : FVal) :
    saveReportToDB o pt hashFn extract db "" content ev now = (db, Except.ok (), none) ∧
    saveEvidenceFileToDB o db "" file fileHash metadata now = (db, Except.ok (), none) := by
  constructor
  · simp [saveReportToDB]
  · simp [saveEvidenceFileToDB]

/-! ## Claim C10: saves stamp `caseId` and `timestamp` over the data -/

/-- C10: every record persisted by the primitive report or evidence save is
exactly `{...data, caseId, timestamp}` appended to its store, and its
`caseId` and `timestamp` properties equal the call's parameters whatever
the data argument contained — including, concretely, a data object that
carries conflicting `caseId` and `timestamp` fields of its own. -/
theorem c10_save_overrides_caller_fields (db : DB) (cid : String) (data : Obj) (now : String) :
    (idbSaveReportAction db cid data now).reports = db.reports ++ [storedRecord data cid now] ∧
    (idbSaveEvidenceAction db cid data now).evidence_files
      = db.evidence_files ++ [storedRecord data cid now] ∧
    getField (storedRecord data cid now) "caseId" = some (FVal.s cid) ∧
    getField (storedRecord data cid now) "timestamp" = some (FVal.s now) ∧
    getField (storedRecord [("caseId", FVal.s "attacker"), ("timestamp", FVal.s "1999")] cid now)
        "caseId" = some (FVal.s cid) ∧
    getField (storedRecord [("caseId", FVal.s "attacker"), ("timestamp", FVal.s "1999")] cid now)
        "timestamp" = some (FVal.s now) :=
  ⟨rfl, rfl, getField_storedRecord_caseId data cid now,
    getField_storedRecord_timestamp data cid now,
    getField_storedRecord_caseId _ cid now,
    getField_storedRecord_timestamp _ cid now⟩

/-! ## Claim C3: `saveCaseMetadata` replaces rather than merges -/

/-- A pre-existing Case aggregate for "case-1" carrying a `tags` field. -/
def c3PreDB : DB := ⟨[], [], [[("caseId", FVal.s "case-1"), ("tags", FVal.s "important")]]⟩

/-- C3 counterexample: before the call the stored aggregate of "case-1"
has `tags = "important"`; after `saveCaseMetadata("case-1", {reportCount:
1})` — an update not naming `tags` — the stored aggregate has no `tags`
field at all, refuting the claim that unnamed fields remain unchanged. -/
theorem c3_counterexample :
    metaField c3PreDB "case-1" "tags" = some (FVal.s "important") ∧
    metaField (idbSaveCaseMetadataAction c3PreDB "case-1" [("reportCount", FVal.n 1)])
        "case-1" "tags" = none :=
  ⟨by decide, by decide⟩

/-- C3 amended: `saveCaseMetadata(caseId, fields)` is an upsert keyed by
`caseId` that REPLACES the whole aggregate record with `{...fields,
caseId}` — creating it when absent — and leaves every other case's record
unchanged; fields of a pre-existing record not named in the update are
dropped, not preserved. -/
theorem c3_save_metadata_replaces (db : DB) (cid : String) (data : Obj) :
    getCaseMeta (idbSaveCaseMetadataAction db cid data) cid
      = some (setField data "caseId" (FVal.s cid)) ∧
    ∀ cid', cid' ≠ cid →
      getCaseMeta (idbSaveCaseMetadataAction db cid data) cid' = getCaseMeta db cid' := by
  constructor
  · exact find?_putByCase_self _ _ _ (getField_setField_self data "caseId" _)
  · intro cid' h
    exact find?_putByCase_ne _ _ _ _ (getField_setField_self data "caseId" _) h

theorem c3_save_metadata_replaces_witness :
    ("case-2" : String) ≠ "case-1" ∧
    getCaseMeta (idbSaveCaseMetadataAction c3PreDB "case-1" [("reportCount", FVal.n 1)]) "case-2"
      = getCaseMeta c3PreDB "case-2" :=
  ⟨by decide,
    (c3_save_metadata_replaces c3PreDB "case-1" [("reportCount", FVal.n 1)]).2 "case-2" (by decide)⟩

/-! ## Claim C2: where storage errors surface -/

/-- C2 counterexample: with the authoritative store failing the report
write, the enclosing `saveReportToDB` call for a non-empty caseId still
completes successfully — the state is unchanged and the caller observes a
fulfilled result (`Except.ok ()`), the StorageError being only logged —
refuting the claim that the enclosing save operation fails and surfaces
the error. -/
theorem c2_counterexample :
    saveReportToDB failReportOracle pt0 hf0 ex0 emptyDB "case-1" "content" [] "t0"
      = (emptyDB, Except.ok (), some StorageErr.reportWrite) := rfl

/-- C2 amended: a local-store failure does fail `StorageManager.saveReport`
/ `saveEvidence` (the error propagates to their caller), but the
application-level wrappers `saveReportToDB` / `saveEvidenceFileToDB` catch
every error and only log it: the wrapper resolves successfully with the
store unchanged, so the StorageError is not observable by the wrapper's
caller. -/
theorem c2_error_surfacing_layers (o : Oracle) (pt : String → Int)
    (hashFn : String → String) (extract : String → List IndexEntry) (db : DB)
    (cid content : String) (ev : List String) (meta : Obj) (now : String)
    (file : JsFile) (fileHash : String) (fmeta : FVal)
    (hr : o.reportWriteFails = true) (he : o.evidenceWriteFails = true) (hcid : cid ≠ "") :
    smSaveReport o db cid content ev meta now = Except.error StorageErr.reportWrite ∧
    smSaveEvidence o db cid file fileHash fmeta now = Except.error StorageErr.evidenceWrite ∧
    saveReportToDB o pt hashFn extract db cid content ev now
      = (db, Except.ok (), some StorageErr.reportWrite) ∧
    saveEvidenceFileToDB o db cid file fileHash fmeta now
      = (db, Except.ok (), some StorageErr.evidenceWrite) := by
  refine ⟨?_, ?_, ?_, ?_⟩
  · simp [smSaveReport, idbSaveReport, hr]
  · simp [smSaveEvidence, idbSaveEvidence, he]
  · simp [saveReportToDB, hcid, smSaveReport, idbSaveReport, hr]
  · simp [saveEvidenceFileToDB, hcid, smSaveEvidence, idbSaveEvidence, he]

theorem c2_error_surfacing_layers_witness :
    failBothOracle.reportWriteFails = true ∧ failBothOracle.evidenceWriteFails = true ∧
    ("case-1" : String) ≠ "" ∧
    (smSaveReport failBothOracle emptyDB "case-1" "content" [] [] "t0"
        = Except.error StorageErr.reportWrite ∧
      smSaveEvidence failBothOracle emptyDB "case-1" file0 "fh" FVal.undef "t0"
        = Except.error StorageErr.evidenceWrite ∧
      saveReportToDB failBothOracle pt0 hf0 ex0 emptyDB "case-1" "content" [] "t0"
        = (emptyDB, Except.ok (), some StorageErr.reportWrite) ∧
      saveEvidenceFileToDB failBothOracle emptyDB "case-1" file0 "fh" FVal.undef "t0"
        = (emptyDB, Except.ok (), some StorageErr.evidenceWrite)) :=
  ⟨rfl, rfl, by decide,
    c2_error_surfacing_layers failBothOracle pt0 hf0 ex0 emptyDB "case-1" "content" [] [] "t0"
      file0 "fh" FVal.undef rfl rfl (by decide)⟩

/-! ## Claim C1: the Case aggregate counts after a report save -/

theorem metaField_after_put (db : DB) (cid : String) (data : Obj) (k : String)
    (hk : k ≠ "caseId") :
    metaField (idbSaveCaseMetadataAction db cid data) cid k = getField data k := by
  have h := find?_putByCase_self db.case_metadata (setField data "caseId" (FVal.s cid)) cid
      (getField_setField_self data "caseId" _)
  unfold metaField
  rw [show getCaseMeta (idbSaveCaseMetadataAction db cid data) cid
      = some (setField data "caseId" (FVal.s cid)) from h]
  show getField (setField data "caseId" (FVal.s cid)) k = getField data k
  exact getField_setField_ne data "caseId" k _ hk

theorem length_getReports (pt : String → Int) (db : DB) (cid : String) :
    (getReports pt db cid).length = countReports db cid := by
  unfold getReports countReports
  exact length_sortAsc _ _

/-- C1 counterexample: saving one report with two evidence references into
an empty store leaves the Case aggregate's `evidenceCount` at 2 although
zero EvidenceFile records are persisted for the case — the code copies the
length of the save call's evidence-reference list instead of counting the
persisted evidence records, refuting the claim. -/
theorem c1_counterexample :
    metaField (saveReportToDB okOracle pt0 hf0 ex0 emptyDB "case-1" "content" ["e1", "e2"] "t0").1
        "case-1" "evidenceCount" = some (FVal.n 2) ∧
    countEvidence
        (saveReportToDB okOracle pt0 hf0 ex0 emptyDB "case-1" "content" ["e1", "e2"] "t0").1
        "case-1" = 0 :=
  ⟨by decide, by decide⟩

/-- C1 amended: after every successful report save with a non-empty caseId
(writes serialized — the model is single-writer), the stored Case
aggregate's `reportCount` equals the number of Report records persisted
for that case at the recompute, while its `evidenceCount` equals the
length of the evidence-reference list passed to that save call, not the
number of persisted EvidenceFile records. -/
theorem c1_aggregate_counts (pt : String → Int) (hashFn : String → String)
    (extract : String → List IndexEntry) (db : DB) (cid content : String)
    (ev : List String) (now : String) (hcid : cid ≠ "") :
    metaField (saveReportToDB okOracle pt hashFn extract db cid content ev now).1 cid
        "reportCount"
      = some (FVal.n (countReports
          (saveReportToDB okOracle pt hashFn extract db cid content ev now).1 cid)) ∧
    metaField (saveReportToDB okOracle pt hashFn extract db cid content ev now).1 cid
        "evidenceCount"
      = some (FVal.n ev.length) := by
  unfold saveReportToDB
  rw [if_neg hcid]
  simp only [smSaveReport, idbSaveReport, okOracle, smSaveCaseMetadata, idbSaveCaseMetadata,
    Bool.false_eq_true, reduceIte]
  constructor
  · rw [metaField_after_put _ _ _ _ (by decide)]
    show some (FVal.n ((getReports _ _ _).length : Int)) = _
    rw [length_getReports]
    rfl
  · rw [metaField_after_put _ _ _ _ (by decide)]
    rfl

theorem c1_aggregate_counts_witness :
    ("case-1" : String) ≠ "" ∧
    (metaField (saveReportToDB okOracle pt0 hf0 ex0 emptyDB "case-1" "content" ["e1"] "t0").1
        "case-1" "reportCount"
      = some (FVal.n (countReports
          (saveReportToDB okOracle pt0 hf0 ex0 emptyDB "case-1" "content" ["e1"] "t0").1
          "case-1")) ∧
    metaField (saveReportToDB okOracle pt0 hf0 ex0 emptyDB "case-1" "content" ["e1"] "t0").1
        "case-1" "evidenceCount"
      = some (FVal.n 1)) :=
  ⟨by decide,
    c1_aggregate_counts pt0 hf0 ex0 emptyDB "case-1" "content" ["e1"] "t0" (by decide)⟩

/-! ## Claim C6: export redaction -/

theorem getField_of_sameExceptBinary (e1 e2 : Obj) (h : sameExceptBinary e1 e2)
    (k : String) (hk : k ≠ "binaryData") : getField e1 k = getField e2 k := by
  have h1 := getField_setField_ne e1 "binaryData" k FVal.undef hk
  have h2 := getField_setField_ne e2 "binaryData" k FVal.undef hk
  rw [← h1, ← h2, h]

theorem redact_of_sameExceptBinary (e1 e2 : Obj) (h : sameExceptBinary e1 e2) :
    redactEvidence e1 = redactEvidence e2 := by
  have hsize : getField e1 "fileSize" = getField e2 "fileSize" :=
    getField_of_sameExceptBinary e1 e2 h "fileSize" (by decide)
  have hgen : ∀ v, setField e1 "binaryData" v = setField e2 "binaryData" v := by
    intro v
    rw [← setField_setField_self e1 "binaryData" FVal.undef v, h, setField_setField_self]
  unfold redactEvidence binaryPlaceholder
  rw [hsize]
  exact hgen _

theorem redactFilter_of_forall2 (cid : String) (l1 l2 : List Obj)
    (h : List.Forall₂ sameExceptBinary l1 l2) :
    (l1.filter (fun r => getField r "caseId" = some (FVal.s cid))).map redactEvidence
      = (l2.filter (fun r => getField r "caseId" = some (FVal.s cid))).map redactEvidence := by
  induction h with
  | nil => rfl
  | cons hab hrest ih =>
    rename_i a b as bs
    have hcase : getField a "caseId" = getField b "caseId" :=
      getField_of_sameExceptBinary a b hab "caseId" (by decide)
    by_cases hc : getField a "caseId" = some (FVal.s cid)
    · rw [List.filter_cons_of_pos (by simpa using hc),
        List.filter_cons_of_pos (by simp [← hcase, hc]),
        List.map_cons, List.map_cons, ih, redact_of_sameExceptBinary a b hab]
    · rw [List.filter_cons_of_neg (by simpa using hc),
        List.filter_cons_of_neg (by simp [← hcase, hc]),
        ih]

/-- C6: the export never contains the bytes of any `binaryPayload`.  First,
every evidence entry of the export document carries, as its `binaryData`,
exactly the size-derived placeholder string.  Second, two stores that agree
on reports and case metadata and whose evidence records pairwise agree on
everything except the value of `binaryData` (in particular on sizes)
export identical documents — the payload bytes cannot influence the
export. -/
theorem c6_export_redaction :
    (∀ (pt : String → Int) (db : DB) (now cid : String) (ce : CaseExport),
      (cid, ce) ∈ (exportAllData pt db now).cases →
        ∀ e ∈ ce.evidence, getField e "binaryData" = some (FVal.s (binaryPlaceholder e))) ∧
    (∀ (pt : String → Int) (db1 db2 : DB) (now : String),
      db1.reports = db2.reports → db1.case_metadata = db2.case_metadata →
      List.Forall₂ sameExceptBinary db1.evidence_files db2.evidence_files →
        exportAllData pt db1 now = exportAllData pt db2 now) := by
  constructor
  · intro pt db now cid ce hmem e he
    rcases List.mem_map.mp hmem with ⟨cid0, _, heq⟩
    have heq2 : ({ reports := getReports pt db cid0,
                   evidence := (getEvidence db cid0).map redactEvidence,
                   metadata := getCaseMeta db cid0 } : CaseExport) = ce :=
      congrArg Prod.snd heq
    rw [← heq2] at he
    rcases List.mem_map.mp he with ⟨e0, _, rfl⟩
    have hbp : binaryPlaceholder (redactEvidence e0) = binaryPlaceholder e0 := by
      unfold binaryPlaceholder redactEvidence
      rw [getField_setField_ne e0 "binaryData" "fileSize" _ (by decide)]
    rw [hbp]
    exact getField_setField_self e0 "binaryData" _
  · intro pt db1 db2 now hrep hmeta hev
    have hcases : getAllCases db1 = getAllCases db2 := by
      unfold getAllCases
      rw [hrep]
    unfold exportAllData
    rw [hcases]
    refine congrArg (fun cs => ExportData.mk cs now) ?_
    refine List.map_congr_left ?_
    intro cid _
    have h1 : getReports pt db1 cid = getReports pt db2 cid := by
      unfold getReports
      rw [hrep]
    have h2 : (getEvidence db1 cid).map redactEvidence
        = (getEvidence db2 cid).map redactEvidence :=
      redactFilter_of_forall2 cid _ _ hev
    have h3 : getCaseMeta db1 cid = getCaseMeta db2 cid := by
      unfold getCaseMeta
      rw [hmeta]
    rw [h1, h2, h3]

/-- An evidence record for "case-1" with payload bytes `[1, 2, 3]`. -/
def evRec1 : Obj :=
  [("fileName", FVal.s "a.pdf"), ("fileType", FVal.s "application/pdf"),
   ("fileSize", FVal.n 3), ("fileHash", FVal.s "h"),
   ("binaryData", FVal.bytes [1, 2, 3]), ("metadata", FVal.undef),
   ("caseId", FVal.s "case-1"), ("timestamp", FVal.s "t")]

/-- The same evidence record with different payload bytes of equal size. -/
def evRec2 : Obj :=
  [("fileName", FVal.s "a.pdf"), ("fileType", FVal.s "application/pdf"),
   ("fileSize", FVal.n 3), ("fileHash", FVal.s "h"),
   ("binaryData", FVal.bytes [9, 9, 9]), ("metadata", FVal.undef),
   ("caseId", FVal.s "case-1"), ("timestamp", FVal.s "t")]

/-- A stored report record for "case-1", so that the case is listed. -/
def repRec1 : Obj :=
  [("content", FVal.s "x"), ("evidence", FVal.strs ["a.pdf"]),
   ("caseId", FVal.s "case-1"), ("timestamp", FVal.s "t")]

/-- A store holding one report and the first evidence record. -/
def dbExport1 : DB := ⟨[repRec1], [evRec1], []⟩

/-- The same store except for the evidence payload bytes. -/
def dbExport2 : DB := ⟨[repRec1], [evRec2], []⟩

theorem c6_export_redaction_witness :
    dbExport1.reports = dbExport2.reports ∧
    dbExport1.case_metadata = dbExport2.case_metadata ∧
    List.Forall₂ sameExceptBinary dbExport1.evidence_files dbExport2.evidence_files ∧
    exportAllData pt0 dbExport1 "t" = exportAllData pt0 dbExport2 "t" :=
  ⟨rfl, rfl, List.Forall₂.cons (by decide) List.Forall₂.nil,
    c6_export_redaction.2 pt0 dbExport1 dbExport2 "t" rfl rfl
      (List.Forall₂.cons (by decide) List.Forall₂.nil)⟩

/-- A concrete person entity entry. -/
def entP : IndexEntry := { type := "entity", subtype := some "person", value := some "John Smith" }

/-- A concrete date entity entry. -/
def entD : IndexEntry := { type := "entity", subtype := some "date", value := some "2024-01-01" }

theorem c5_merge_key_set_invariance_witness :
    ([[entP], [entD]] : List (List IndexEntry)).Perm [[entD], [entP]] ∧
    ((∀ k, k ∈ (mergeNarrativeIndices [[entP], [entD]]).map keyOf ↔
        ∃ l ∈ ([[entP], [entD]] : List (List IndexEntry)), ∃ e ∈ l, keyOf e = k) ∧
     (∀ k, k ∈ (mergeNarrativeIndices [[entP], [entD]]).map keyOf ↔
        k ∈ (mergeNarrativeIndices [[entD], [entP]]).map keyOf) ∧
     ((mergeNarrativeIndices [[entP], [entD]]).map keyOf).Nodup ∧
     ((mergeNarrativeIndices [[entD], [entP]]).map keyOf).Nodup) :=
  ⟨List.Perm.swap [entD] [entP] [],
    c5_merge_key_set_invariance [[entP], [entD]] [[entD], [entP]]
      (List.Perm.swap [entD] [entP] [])⟩
